import Mathlib

/-!
Verification of the CV-assessment multi-agent workflow engine.

This file gives a shallow embedding of the repository's core:
  * the Pydantic schemas of `models/schemas.py` (scores as rationals,
    timestamps as naturals),
  * the document dispatcher `parse_document` of `utils/document_parser.py`
    (the per-format text extractors are external collaborators; they are
    modelled as reading the text recorded for the path in a file-system
    value),
  * the LangGraph workflow of `workflows/assessment_workflow.py`: the state
    record, the seven node functions, the edge list built by
    `_build_workflow`, and `run`.

The LLM-backed agents are opaque collaborators; they are parameters of the
embedding (an `Agents` record of functions that may fail).  Concurrency is
modelled by quantifying over the schedules (linearisations) that respect the
edges of the graph: LangGraph dispatches a node only after all of its
predecessor nodes have completed, so every execution of the compiled graph
realises one such schedule, with execution halting at the first node that
raises.
-/

namespace CVAssess

/-! ## Schemas (`models/schemas.py`) -/

/-- `Skill` of `models/schemas.py`. -/
structure Skill where
  name : String
  skill_level : Option String := none
  years_experience : Option ℚ := none
  category : Option String := none
deriving DecidableEq, Repr

/-- `WorkExperience` of `models/schemas.py`. -/
structure WorkExperience where
  company : String
  position : String
  start_date : Option String := none
  end_date : Option String := none
  duration_months : Option Int := none
  responsibilities : List String := []
deriving DecidableEq, Repr

/-- `Education` of `models/schemas.py`. -/
structure Education where
  institution : String
  degree : String
  field_of_study : Option String := none
  graduation_year : Option Int := none
  gpa : Option ℚ := none
deriving DecidableEq, Repr

/-- `CVData` of `models/schemas.py`. -/
structure CVData where
  candidate_name : Option String := none
  email : Option String := none
  phone : Option String := none
  location : Option String := none
  summary : Option String := none
  skills : List Skill := []
  work_experience : List WorkExperience := []
  education : List Education := []
  certifications : List String := []
  languages : List String := []
deriving DecidableEq, Repr

/-- `JobDescription` of `models/schemas.py`. -/
structure JobDescription where
  job_title : String
  company : Option String := none
  department : Option String := none
  location : Option String := none
  necessary_experince : List String := []
  necessary_skills : List Skill := []
  nice_to_have_experience : List String := []
  nice_to_have_skills : List Skill := []
  responsibilities : List String := []
  education : List String := []
  leadership : List String := []
  soft_skills_requirement : List String := []
  salary_range : Option String := none
deriving DecidableEq, Repr

/-- `SkillMatchResult` of `models/schemas.py` (the `ge=0.0, le=1.0` bound on
`match_score` is a validation constraint, not part of the carrier type). -/
structure SkillMatchResult where
  matched_skills : List String := []
  missing_skills : List String := []
  partial_matches : List String := []
  skill_gap_analysis : String
  match_score : ℚ
deriving DecidableEq, Repr

/-- `ExperienceEvaluation` of `models/schemas.py`. -/
structure ExperienceEvaluation where
  total_years_experience : ℚ
  relevant_years_experience : ℚ
  relevant_roles : List String := []
  experience_level : String
  key_achievements : List String := []
  experience_score : ℚ
  analysis : String
deriving DecidableEq, Repr

/-- `CultureFitAssessment` of `models/schemas.py`. -/
structure CultureFitAssessment where
  soft_skills_identified : List String := []
  leadership_indicators : List String := []
  culture_fit_score : ℚ
  notes : String
deriving DecidableEq, Repr

/-- The local `AssessmentDetails` model defined inside
`FinalScorerAgent.create_final_assessment`. -/
structure AssessmentDetails where
  recommendation : String
  strengths : List String
  concerns : List String
  summary : String
deriving DecidableEq, Repr

/-- `AssessmentResult` of `models/schemas.py`; the timestamp is a natural
number (the wall clock is a collaborator). -/
structure AssessmentResult where
  cv_data : CVData
  job_description : JobDescription
  skill_match : SkillMatchResult
  experience_evaluation : ExperienceEvaluation
  culture_fit : CultureFitAssessment
  overall_score : ℚ
  recommendation : String
  strengths : List String := []
  concerns : List String := []
  summary : String
  timestamp : ℕ
deriving DecidableEq, Repr

/-! ## Document parsing (`utils/document_parser.py`) -/

/-- The file system the document loader sees: for each existing path, the
plain text that the format-specific extractor (pypdf / python-docx / `read`
/ `json.load` then `json.dumps`) yields for that file.  The extractors
themselves are external collaborators, out of the spec's scope. -/
structure FS where
  files : List (String × String)
deriving DecidableEq

/-- The text recorded for a path, when the path exists. -/
def FS.lookupFile (fs : FS) (p : String) : Option String := fs.files.lookup p

/-- `Path.exists()` on the modelled file system. -/
def FS.existsFile (fs : FS) (p : String) : Bool := (fs.lookupFile p).isSome

/-- Characters of the final path component (everything after the last `/`;
pathlib's normalisation of trailing separators is not modelled). -/
def lastComponent (cs : List Char) : List Char :=
  cs.foldl (fun acc c => if c = '/' then [] else acc ++ [c]) []

/-- `Path.name`: the final path component. -/
def pathName (p : String) : String := String.mk (lastComponent p.toList)

/-- Index of the last `.` in a list of characters, if any. -/
def lastDotIdx (cs : List Char) : Option ℕ :=
  ((cs.enum.filter (fun q => q.2 = '.')).map Prod.fst).getLast?

/-- `Path.suffix` as pathlib computes it: the part of the name from the last
dot, provided that dot is neither the first nor the last character of the
name; otherwise the empty string. -/
def pythonSuffix (p : String) : String :=
  match lastDotIdx (pathName p).toList with
  | none => ""
  | some i =>
    if 0 < i ∧ i < (pathName p).toList.length - 1 then
      String.mk ((pathName p).toList.drop i)
    else ""

/-- ASCII lower-casing, character by character (`str.lower()` on the
ASCII extensions the dispatcher compares against). -/
def strLower (s : String) : String := String.mk (s.toList.map Char.toLower)

instance {ε α : Type _} [DecidableEq ε] [DecidableEq α] :
    DecidableEq (Except ε α) := fun a b =>
  match a, b with
  | .ok x, .ok y =>
    if h : x = y then isTrue (by rw [h]) else isFalse (by simp [h])
  | .error x, .error y =>
    if h : x = y then isTrue (by rw [h]) else isFalse (by simp [h])
  | .ok _, .error _ => isFalse (by simp)
  | .error _, .ok _ => isFalse (by simp)

/-- The two failures `parse_document` raises itself: `FileNotFoundError` and
`ValueError` for an unsupported extension. -/
inductive DocError where
  | fileNotFound (msg : String)
  | unsupportedFormat (msg : String)
deriving DecidableEq, Repr

/-- `parse_pdf`: collaborator extraction of a PDF's text (modelled as the
text recorded for the path). -/
def parse_pdf (fs : FS) (p : String) : String := (fs.lookupFile p).getD ""

/-- `parse_docx`: collaborator extraction of a DOCX's text. -/
def parse_docx (fs : FS) (p : String) : String := (fs.lookupFile p).getD ""

/-- `parse_txt`: reading a plain-text file. -/
def parse_txt (fs : FS) (p : String) : String := (fs.lookupFile p).getD ""

/-- The `.json` branch of `parse_document`: `json.load` then
`json.dumps(..., indent=2)` (collaborator round trip, modelled as the text
recorded for the path). -/
def parse_json_dump (fs : FS) (p : String) : String := (fs.lookupFile p).getD ""

/-- `parse_document` of `utils/document_parser.py`: raise `FileNotFoundError`
when the path does not exist, dispatch on the lower-cased suffix, raise
`ValueError` on an unrecognised extension. -/
def parse_document (fs : FS) (file_path : String) : Except DocError String :=
  if ¬ fs.existsFile file_path then
    .error (.fileNotFound ("File not found: " ++ file_path))
  else
    if strLower (pythonSuffix file_path) = ".pdf" then .ok (parse_pdf fs file_path)
    else if strLower (pythonSuffix file_path) = ".docx" then .ok (parse_docx fs file_path)
    else if strLower (pythonSuffix file_path) = ".txt" ∨ strLower (pythonSuffix file_path) = ".md" then
      .ok (parse_txt fs file_path)
    else if strLower (pythonSuffix file_path) = ".json" then .ok (parse_json_dump fs file_path)
    else
      .error (.unsupportedFormat ("Unsupported file format: " ++ strLower (pythonSuffix file_path)))

/-- The extensions `parse_document` recognises. -/
def supportedExtensions : List String := [".pdf", ".docx", ".txt", ".md", ".json"]

/-! ## Workflow (`workflows/assessment_workflow.py`) -/

/-- The seven nodes `_build_workflow` adds to the graph. -/
inductive Stage where
  | load_documents
  | parse_cv
  | analyze_job
  | match_skills
  | evaluate_experience
  | assess_culture_fit
  | create_final_assessment
deriving DecidableEq, Repr

/-- `WorkflowState` of `workflows/assessment_workflow.py`: every key of the
TypedDict may be `None`. -/
structure WorkflowState where
  cv_file_path : Option String := none
  job_description_path : Option String := none
  cv_text : Option String := none
  job_text : Option String := none
  cv_data : Option CVData := none
  job_description : Option JobDescription := none
  skill_match : Option SkillMatchResult := none
  experience_evaluation : Option ExperienceEvaluation := none
  culture_fit : Option CultureFitAssessment := none
  assessment_result : Option AssessmentResult := none
deriving DecidableEq, Repr

/-- Python truthiness of a `str | None` value: `None` and `""` are falsy. -/
def optStrTruthy : Option String → Bool
  | none => false
  | some s => s != ""

/-- The exceptions a node can raise: a `parse_document` error, a
`ValueError` raised by the node itself, or a failure of the opaque LLM-backed
agent call. -/
inductive Err where
  | doc (e : DocError)
  | valueError (msg : String)
  | agent (msg : String)
deriving DecidableEq, Repr

/-- The six LLM-backed agents, as opaque collaborators: each is a function
that may fail (`ValidationError` / `ProviderError` collapsed into a message),
plus the wall clock read by `datetime.now()`. -/
structure Agents where
  parse_cv : String → Except String CVData
  analyze_job : String → Except String JobDescription
  match_skills : CVData → JobDescription → Except String SkillMatchResult
  evaluate_experience : CVData → JobDescription → Except String ExperienceEvaluation
  assess_culture_fit : CVData → JobDescription → Except String CultureFitAssessment
  scorer_details : CVData → JobDescription → SkillMatchResult → ExperienceEvaluation →
    CultureFitAssessment → ℚ → Except String AssessmentDetails
  now : ℕ

/-- The dict of updates a node returns: present keys only (nodes never put a
`None` value into the dict they return). -/
structure Update where
  cv_text : Option String := none
  job_text : Option String := none
  cv_data : Option CVData := none
  job_description : Option JobDescription := none
  skill_match : Option SkillMatchResult := none
  experience_evaluation : Option ExperienceEvaluation := none
  culture_fit : Option CultureFitAssessment := none
  assessment_result : Option AssessmentResult := none
deriving DecidableEq, Repr

/-- Merging a node's returned dict into the state: a key present in the
update overwrites the state's value, absent keys are kept. -/
def applyUpdate (s : WorkflowState) (u : Update) : WorkflowState :=
  { s with
    cv_text := u.cv_text.orElse fun _ => s.cv_text
    job_text := u.job_text.orElse fun _ => s.job_text
    cv_data := u.cv_data.orElse fun _ => s.cv_data
    job_description := u.job_description.orElse fun _ => s.job_description
    skill_match := u.skill_match.orElse fun _ => s.skill_match
    experience_evaluation := u.experience_evaluation.orElse fun _ => s.experience_evaluation
    culture_fit := u.culture_fit.orElse fun _ => s.culture_fit
    assessment_result := u.assessment_result.orElse fun _ => s.assessment_result }

/-- `_load_documents`: parse the CV file when its path is truthy, then the
job file when its path is truthy; re-raise any `parse_document` failure. -/
def loadDocumentsNode (fs : FS) (state : WorkflowState) : Except Err Update :=
  match (if optStrTruthy state.cv_file_path then
          match parse_document fs (state.cv_file_path.getD "") with
          | .ok t => .ok { cv_text := some t }
          | .error e => .error (.doc e)
        else (.ok {} : Except Err Update)) with
  | .error e => .error e
  | .ok u =>
    if optStrTruthy state.job_description_path then
      match parse_document fs (state.job_description_path.getD "") with
      | .ok t => .ok { u with job_text := some t }
      | .error e => .error (.doc e)
    else .ok u

/-- `_parse_cv`: raise `ValueError` when `cv_text` is falsy, else call the
CV-parser agent and return its record under the `cv_data` key. -/
def parseCVNode (ag : Agents) (state : WorkflowState) : Except Err Update :=
  if optStrTruthy state.cv_text then
    match ag.parse_cv (state.cv_text.getD "") with
    | .ok d => .ok { cv_data := some d }
    | .error m => .error (.agent m)
  else .error (.valueError "No CV text available")

/-- `_analyze_job`: raise `ValueError` when `job_text` is falsy, else call
the job-analyzer agent and return its record under `job_description`. -/
def analyzeJobNode (ag : Agents) (state : WorkflowState) : Except Err Update :=
  if optStrTruthy state.job_text then
    match ag.analyze_job (state.job_text.getD "") with
    | .ok d => .ok { job_description := some d }
    | .error m => .error (.agent m)
  else .error (.valueError "No job description text available")

/-- `_match_skills`: a Pydantic model instance is always truthy, so the
`not cv_data or not job_description` guard is exactly a `None` check. -/
def matchSkillsNode (ag : Agents) (state : WorkflowState) : Except Err Update :=
  match state.cv_data, state.job_description with
  | some cvd, some jd =>
    match ag.match_skills cvd jd with
    | .ok r => .ok { skill_match := some r }
    | .error m => .error (.agent m)
  | _, _ => .error (.valueError "CV data or job description not available")

/-- `_evaluate_experience`. -/
def evaluateExperienceNode (ag : Agents) (state : WorkflowState) : Except Err Update :=
  match state.cv_data, state.job_description with
  | some cvd, some jd =>
    match ag.evaluate_experience cvd jd with
    | .ok r => .ok { experience_evaluation := some r }
    | .error m => .error (.agent m)
  | _, _ => .error (.valueError "CV data or job description not available")

/-- `_assess_culture_fit`. -/
def assessCultureFitNode (ag : Agents) (state : WorkflowState) : Except Err Update :=
  match state.cv_data, state.job_description with
  | some cvd, some jd =>
    match ag.assess_culture_fit cvd jd with
    | .ok r => .ok { culture_fit := some r }
    | .error m => .error (.agent m)
  | _, _ => .error (.valueError "CV data or job description not available")

/-- `FinalScorerAgent.create_final_assessment`: compute the weighted overall
score (weights 0.4, 0.4, 0.2 in the source), ask the LLM collaborator for
recommendation / strengths / concerns / summary, and build the
`AssessmentResult` via `model_construct` (no re-validation), embedding the
five input records unchanged and stamping `datetime.now()`. -/
def create_final_assessment (ag : Agents) (cv_data : CVData)
    (job_description : JobDescription) (skill_match : SkillMatchResult)
    (experience_eval : ExperienceEvaluation) (culture_fit : CultureFitAssessment) :
    Except Err AssessmentResult :=
  match ag.scorer_details cv_data job_description skill_match experience_eval
      culture_fit
      (skill_match.match_score * (4 / 10) + experience_eval.experience_score * (4 / 10)
        + culture_fit.culture_fit_score * (2 / 10)) with
  | .error m => .error (.agent m)
  | .ok details =>
    .ok { cv_data := cv_data
          job_description := job_description
          skill_match := skill_match
          experience_evaluation := experience_eval
          culture_fit := culture_fit
          overall_score :=
            skill_match.match_score * (4 / 10) + experience_eval.experience_score * (4 / 10)
              + culture_fit.culture_fit_score * (2 / 10)
          recommendation := details.recommendation
          strengths := details.strengths
          concerns := details.concerns
          summary := details.summary
          timestamp := ag.now }

/-- `_create_final_assessment`: the `not all([...])` guard, then the final
scorer agent. -/
def createFinalAssessmentNode (ag : Agents) (state : WorkflowState) : Except Err Update :=
  match state.cv_data, state.job_description, state.skill_match,
      state.experience_evaluation, state.culture_fit with
  | some cvd, some jd, some sm, some ee, some cf =>
    match create_final_assessment ag cvd jd sm ee cf with
    | .ok r => .ok { assessment_result := some r }
    | .error e => .error e
  | _, _, _, _, _ => .error (.valueError "Not all assessment components available")

/-- Dispatch to the node function of a stage. -/
def runNode (fs : FS) (ag : Agents) : Stage → WorkflowState → Except Err Update
  | .load_documents => loadDocumentsNode fs
  | .parse_cv => parseCVNode ag
  | .analyze_job => analyzeJobNode ag
  | .match_skills => matchSkillsNode ag
  | .evaluate_experience => evaluateExperienceNode ag
  | .assess_culture_fit => assessCultureFitNode ag
  | .create_final_assessment => createFinalAssessmentNode ag

/-- The edge list built by `_build_workflow` (the edge to `END` is implicit
in a schedule ending after `create_final_assessment`). -/
def workflowEdges : List (Stage × Stage) :=
  [ (.load_documents, .parse_cv), (.load_documents, .analyze_job),
    (.parse_cv, .match_skills), (.parse_cv, .evaluate_experience),
    (.parse_cv, .assess_culture_fit),
    (.analyze_job, .match_skills), (.analyze_job, .evaluate_experience),
    (.analyze_job, .assess_culture_fit),
    (.match_skills, .create_final_assessment),
    (.evaluate_experience, .create_final_assessment),
    (.assess_culture_fit, .create_final_assessment) ]

/-- All seven stages, in the order the supersteps of the compiled graph
dispatch them (entry point first). -/
def stageList : List Stage :=
  [.load_documents, .parse_cv, .analyze_job, .match_skills,
   .evaluate_experience, .assess_culture_fit, .create_final_assessment]

/-- A schedule is a linearisation the engine can realise: no node dispatched
twice, and for every dependency edge whose target is scheduled, the source
is dispatched strictly before it (it lies in the prefix of the schedule
before the target).  LangGraph dispatches a node only after all of its
predecessors completed, so every execution of the compiled graph realises
such a schedule. -/
def IsSchedule (sched : List Stage) : Prop :=
  sched.Nodup ∧
    ∀ e ∈ workflowEdges, e.2 ∈ sched →
      e.1 ∈ sched.takeWhile (fun st => st != e.2)

instance (sched : List Stage) : Decidable (IsSchedule sched) := by
  unfold IsSchedule; infer_instance

/-- Sequential execution of a schedule: run each node on the accumulated
state, merge its returned dict, halt at the first node that raises (the
pair records the state reached and, on failure, the raising stage and its
exception). -/
def execSchedule (fs : FS) (ag : Agents) :
    List Stage → WorkflowState → WorkflowState × Option (Stage × Err)
  | [], s => (s, none)
  | st :: rest, s =>
    match runNode fs ag st s with
    | .ok u => execSchedule fs ag rest (applyUpdate s u)
    | .error e => (s, some (st, e))

/-- The schedule the compiled graph's supersteps realise. -/
def canonicalSchedule : List Stage := stageList

/-- The initial state `run` builds: both paths set, every other key `None`. -/
def initialState (cv_file_path job_description_path : String) : WorkflowState :=
  { cv_file_path := some cv_file_path
    job_description_path := some job_description_path }

/-- `self.workflow.invoke(...)` along a given schedule: the final state when
every node succeeds, `none` when some node raises (the exception propagates
out of `invoke`). -/
def invokeOn (fs : FS) (ag : Agents) (sched : List Stage) (s : WorkflowState) :
    Option WorkflowState :=
  match execSchedule fs ag sched s with
  | (s', none) => some s'
  | (_, some _) => none

/-- The first failure of an execution, with the stage that raised it. -/
def firstFailure (fs : FS) (ag : Agents) (sched : List Stage) (s : WorkflowState) :
    Option (Stage × Err) :=
  (execSchedule fs ag sched s).2

/-- `CVAssessmentWorkflow.run` along a given schedule: build the initial
state, invoke the graph, return `final_state.get("assessment_result")` on
success and `None` when the invocation raised (the `except` clause logs the
error and returns `None`). -/
def runOn (fs : FS) (ag : Agents) (sched : List Stage)
    (cv_file_path job_description_path : String) : Option AssessmentResult :=
  match invokeOn fs ag sched (initialState cv_file_path job_description_path) with
  | some final => final.assessment_result
  | none => none

/-- `CVAssessmentWorkflow.run` on the canonical schedule. -/
def run (fs : FS) (ag : Agents) (cv_file_path job_description_path : String) :
    Option AssessmentResult :=
  runOn fs ag canonicalSchedule cv_file_path job_description_path

/-! ## Slots and the writer map -/

/-- The eight Run State slots of the spec (the two input paths are
parameters of the run, not stage outputs). -/
inductive SlotName where
  | cv_text | job_text | cv_data | job_description
  | skill_match | experience_evaluation | culture_fit | assessment_result
deriving DecidableEq, Repr

/-- Whether a slot is populated in a state. -/
def slotSet (x : SlotName) (s : WorkflowState) : Bool :=
  match x with
  | .cv_text => s.cv_text.isSome
  | .job_text => s.job_text.isSome
  | .cv_data => s.cv_data.isSome
  | .job_description => s.job_description.isSome
  | .skill_match => s.skill_match.isSome
  | .experience_evaluation => s.experience_evaluation.isSome
  | .culture_fit => s.culture_fit.isSome
  | .assessment_result => s.assessment_result.isSome

/-- Whether a node's returned dict writes a slot. -/
def updWrites (x : SlotName) (u : Update) : Bool :=
  match x with
  | .cv_text => u.cv_text.isSome
  | .job_text => u.job_text.isSome
  | .cv_data => u.cv_data.isSome
  | .job_description => u.job_description.isSome
  | .skill_match => u.skill_match.isSome
  | .experience_evaluation => u.experience_evaluation.isSome
  | .culture_fit => u.culture_fit.isSome
  | .assessment_result => u.assessment_result.isSome

/-- The unique stage whose node may write a slot (its declared owner). -/
def slotWriter : SlotName → Stage
  | .cv_text => .load_documents
  | .job_text => .load_documents
  | .cv_data => .parse_cv
  | .job_description => .analyze_job
  | .skill_match => .match_skills
  | .experience_evaluation => .evaluate_experience
  | .culture_fit => .assess_culture_fit
  | .assessment_result => .create_final_assessment

/-- The slot a stage's node writes on every success (`none` for
`load_documents`, whose writes are conditional on the truthiness of the two
path parameters). -/
def stageSlot : Stage → Option SlotName
  | .load_documents => none
  | .parse_cv => some .cv_data
  | .analyze_job => some .job_description
  | .match_skills => some .skill_match
  | .evaluate_experience => some .experience_evaluation
  | .assess_culture_fit => some .culture_fit
  | .create_final_assessment => some .assessment_result

/-- The three fan-out evaluator stages. -/
def isEvaluator : Stage → Bool
  | .match_skills => true
  | .evaluate_experience => true
  | .assess_culture_fit => true
  | _ => false

/-- Direct successors of a stage in the edge list. -/
def stageSuccessors (st : Stage) : List Stage :=
  (workflowEdges.filter (fun e => e.1 == st)).map (fun e => e.2)

/-- Reachability along edges within a bounded number of steps. -/
def reachableWithin : ℕ → Stage → Stage → Bool
  | 0, _, _ => false
  | n + 1, a, b =>
    (stageSuccessors a).any fun c => c == b || reachableWithin n c b

/-- `b` is strictly downstream of `a` in the workflow graph. -/
def downstream (a b : Stage) : Bool := reachableWithin 7 a b

/-! ## The spec's stub scenario (Section 8)

Concrete collaborator instances used to witness the theorems: the stub
document loader returns fixed text for `cv.txt` / `job.txt`, the stub
extractor returns a fixed CV record (name "Jane Doe", two skills) and Job
record (title "Data Scientist", two required skills, one matching), the stub
evaluators return the fixed scores 0.9 / 0.8 / 0.7. -/

/-- Modelled from the spec: the stub aggregator's recommendation label — the
threshold table of Section 8 and of the final-scorer prompt
(`strong_match` at ≥ 0.8, `good_match` at ≥ 0.6, `weak_match` at ≥ 0.4);
in the source the label is produced by the LLM collaborator, not computed. -/
def recommendationLabel (overall : ℚ) : String :=
  if 8 / 10 ≤ overall then "strong_match"
  else if 6 / 10 ≤ overall then "good_match"
  else if 4 / 10 ≤ overall then "weak_match"
  else "no_match"

/-- Stub CV record: Jane Doe with two skills. -/
def stubCV : CVData :=
  { candidate_name := some "Jane Doe"
    skills := [{ name := "Python" }, { name := "SQL" }] }

/-- Stub job record: Data Scientist with two required skills, one matching. -/
def stubJob : JobDescription :=
  { job_title := "Data Scientist"
    necessary_skills := [{ name := "Python" }, { name := "Spark" }] }

/-- Stub skills evaluation, score 0.9. -/
def stubSkillMatch : SkillMatchResult :=
  { matched_skills := ["Python"]
    missing_skills := ["Spark"]
    skill_gap_analysis := "One of two required skills present."
    match_score := mkRat 9 10 }

/-- Stub experience evaluation, score 0.8. -/
def stubExperience : ExperienceEvaluation :=
  { total_years_experience := 6
    relevant_years_experience := 5
    experience_level := "senior"
    experience_score := mkRat 8 10
    analysis := "Solid relevant experience." }

/-- Stub culture-fit evaluation, score 0.7. -/
def stubCulture : CultureFitAssessment :=
  { soft_skills_identified := ["communication"]
    culture_fit_score := mkRat 7 10
    notes := "Good collaborative indicators." }

/-- Stub agents: every collaborator succeeds deterministically; the final
scorer's detail call labels by `recommendationLabel`. -/
def stubAgents : Agents where
  parse_cv := fun _ => .ok stubCV
  analyze_job := fun _ => .ok stubJob
  match_skills := fun _ _ => .ok stubSkillMatch
  evaluate_experience := fun _ _ => .ok stubExperience
  assess_culture_fit := fun _ _ => .ok stubCulture
  scorer_details := fun _ _ _ _ _ overall =>
    .ok { recommendation := recommendationLabel overall
          strengths := ["Strong core skills"]
          concerns := ["Missing Spark"]
          summary := "Well qualified overall." }
  now := 0

/-- Stub file system: fixed text for `cv.txt` and `job.txt`. -/
def stubFS : FS :=
  { files := [("cv.txt", "Jane Doe. Skills: Python, SQL."),
              ("job.txt", "Data Scientist. Required: Python, Spark.")] }

/-- A file system missing the CV file. -/
def fsNoCV : FS :=
  { files := [("job.txt", "Data Scientist. Required: Python, Spark.")] }

/-- Stub agents whose job analysis raises `ExtractionFailure`. -/
def agentsJobFail : Agents :=
  { stubAgents with analyze_job := fun _ => .error "ExtractionFailure" }

/-- Stub agents whose CV parsing fails. -/
def agentsCVFail : Agents :=
  { stubAgents with parse_cv := fun _ => .error "ExtractionFailure" }

/-- Stub agents whose skills matching fails. -/
def agentsSkillsFail : Agents :=
  { stubAgents with match_skills := fun _ _ => .error "ProviderError" }

/-! ## Lemmas about updates and node outputs -/

theorem isSome_orElse {α : Type _} (a b : Option α) :
    (a.orElse fun _ => b).isSome = (a.isSome || b.isSome) := by
  cases a <;> simp [Option.orElse]

/-- Populating a slot through a merge: the slot is set afterwards exactly
when the update writes it or it was set before. -/
theorem slotSet_applyUpdate (x : SlotName) (s : WorkflowState) (u : Update) :
    slotSet x (applyUpdate s u) = (updWrites x u || slotSet x s) := by
  cases x <;> simp [slotSet, applyUpdate, updWrites, isSome_orElse]

theorem loadDocumentsNode_ok_shape {fs : FS} {s : WorkflowState} {u : Update}
    (hok : loadDocumentsNode fs s = .ok u) :
    ∃ a b, u = { cv_text := a, job_text := b } := by
  unfold loadDocumentsNode at hok
  split at hok
  · cases hok
  · rename_i u1 heq1
    have h1 : ∃ a, u1 = ({ cv_text := a } : Update) := by
      split at heq1
      · split at heq1
        · cases heq1; exact ⟨_, rfl⟩
        · cases heq1
      · cases heq1; exact ⟨_, rfl⟩
    obtain ⟨a, rfl⟩ := h1
    split at hok
    · split at hok
      · cases hok; exact ⟨_, _, rfl⟩
      · cases hok
    · cases hok; exact ⟨_, _, rfl⟩

theorem parseCVNode_ok_shape {ag : Agents} {s : WorkflowState} {u : Update}
    (hok : parseCVNode ag s = .ok u) : ∃ d, u = { cv_data := some d } := by
  unfold parseCVNode at hok
  split at hok
  · split at hok
    · cases hok; exact ⟨_, rfl⟩
    · exact absurd hok (by simp)
  · exact absurd hok (by simp)

theorem analyzeJobNode_ok_shape {ag : Agents} {s : WorkflowState} {u : Update}
    (hok : analyzeJobNode ag s = .ok u) : ∃ d, u = { job_description := some d } := by
  unfold analyzeJobNode at hok
  split at hok
  · split at hok
    · cases hok; exact ⟨_, rfl⟩
    · exact absurd hok (by simp)
  · exact absurd hok (by simp)

theorem matchSkillsNode_ok_shape {ag : Agents} {s : WorkflowState} {u : Update}
    (hok : matchSkillsNode ag s = .ok u) : ∃ r, u = { skill_match := some r } := by
  unfold matchSkillsNode at hok
  split at hok
  · split at hok
    · cases hok; exact ⟨_, rfl⟩
    · exact absurd hok (by simp)
  · exact absurd hok (by simp)

theorem evaluateExperienceNode_ok_shape {ag : Agents} {s : WorkflowState} {u : Update}
    (hok : evaluateExperienceNode ag s = .ok u) :
    ∃ r, u = { experience_evaluation := some r } := by
  unfold evaluateExperienceNode at hok
  split at hok
  · split at hok
    · cases hok; exact ⟨_, rfl⟩
    · exact absurd hok (by simp)
  · exact absurd hok (by simp)

theorem assessCultureFitNode_ok_shape {ag : Agents} {s : WorkflowState} {u : Update}
    (hok : assessCultureFitNode ag s = .ok u) :
    ∃ r, u = { culture_fit := some r } := by
  unfold assessCultureFitNode at hok
  split at hok
  · split at hok
    · cases hok; exact ⟨_, rfl⟩
    · exact absurd hok (by simp)
  · exact absurd hok (by simp)

theorem createFinalAssessmentNode_ok_shape {ag : Agents} {s : WorkflowState} {u : Update}
    (hok : createFinalAssessmentNode ag s = .ok u) :
    ∃ r, u = { assessment_result := some r } := by
  unfold createFinalAssessmentNode at hok
  split at hok
  · split at hok
    · cases hok; exact ⟨_, rfl⟩
    · exact absurd hok (by simp)
  · exact absurd hok (by simp)

/-- Every node writes only the slots it owns. -/
theorem runNode_writes_only {fs : FS} {ag : Agents} {st : Stage} {s : WorkflowState}
    {u : Update} {x : SlotName} (hok : runNode fs ag st s = .ok u)
    (hw : updWrites x u = true) : slotWriter x = st := by
  cases st <;> simp only [runNode] at hok
  case load_documents =>
    obtain ⟨a, b, rfl⟩ := loadDocumentsNode_ok_shape hok
    cases x <;> simp_all [updWrites, slotWriter]
  case parse_cv =>
    obtain ⟨d, rfl⟩ := parseCVNode_ok_shape hok
    cases x <;> simp_all [updWrites, slotWriter]
  case analyze_job =>
    obtain ⟨d, rfl⟩ := analyzeJobNode_ok_shape hok
    cases x <;> simp_all [updWrites, slotWriter]
  case match_skills =>
    obtain ⟨r, rfl⟩ := matchSkillsNode_ok_shape hok
    cases x <;> simp_all [updWrites, slotWriter]
  case evaluate_experience =>
    obtain ⟨r, rfl⟩ := evaluateExperienceNode_ok_shape hok
    cases x <;> simp_all [updWrites, slotWriter]
  case assess_culture_fit =>
    obtain ⟨r, rfl⟩ := assessCultureFitNode_ok_shape hok
    cases x <;> simp_all [updWrites, slotWriter]
  case create_final_assessment =>
    obtain ⟨r, rfl⟩ := createFinalAssessmentNode_ok_shape hok
    cases x <;> simp_all [updWrites, slotWriter]

/-- Every node other than `load_documents` writes its own slot on success. -/
theorem runNode_ok_writes_own {fs : FS} {ag : Agents} {st : Stage} {s : WorkflowState}
    {u : Update} {x : SlotName} (hslot : stageSlot st = some x)
    (hok : runNode fs ag st s = .ok u) : updWrites x u = true := by
  cases st <;> simp only [stageSlot] at hslot <;> cases hslot <;>
    simp only [runNode] at hok
  case parse_cv =>
    obtain ⟨d, rfl⟩ := parseCVNode_ok_shape hok; rfl
  case analyze_job =>
    obtain ⟨d, rfl⟩ := analyzeJobNode_ok_shape hok; rfl
  case match_skills =>
    obtain ⟨r, rfl⟩ := matchSkillsNode_ok_shape hok; rfl
  case evaluate_experience =>
    obtain ⟨r, rfl⟩ := evaluateExperienceNode_ok_shape hok; rfl
  case assess_culture_fit =>
    obtain ⟨r, rfl⟩ := assessCultureFitNode_ok_shape hok; rfl
  case create_final_assessment =>
    obtain ⟨r, rfl⟩ := createFinalAssessmentNode_ok_shape hok; rfl

/-! ## Lemmas about schedule execution -/

theorem execSchedule_append (fs : FS) (ag : Agents) (l₁ l₂ : List Stage)
    (s : WorkflowState) :
    execSchedule fs ag (l₁ ++ l₂) s =
      match execSchedule fs ag l₁ s with
      | (s', none) => execSchedule fs ag l₂ s'
      | (s', some e) => (s', some e) := by
  induction l₁ generalizing s with
  | nil => simp [execSchedule]
  | cons st rest ih =>
    simp only [List.cons_append, execSchedule]
    cases runNode fs ag st s with
    | ok u => exact ih _
    | error e => rfl

/-- A populated slot stays populated through any further execution. -/
theorem exec_preserves_slotSet (fs : FS) (ag : Agents) (l : List Stage)
    (s : WorkflowState) (x : SlotName) (h : slotSet x s = true) :
    slotSet x (execSchedule fs ag l s).1 = true := by
  induction l generalizing s with
  | nil => exact h
  | cons st rest ih =>
    simp only [execSchedule]
    cases hn : runNode fs ag st s with
    | ok u => exact ih _ (by simp [slotSet_applyUpdate, h])
    | error e => exact h

/-- A slot whose owning stage is not in the executed list keeps its
populated-or-not status. -/
theorem exec_slot_unchanged (fs : FS) (ag : Agents) (l : List Stage)
    (s : WorkflowState) (x : SlotName) (hw : slotWriter x ∉ l) :
    slotSet x (execSchedule fs ag l s).1 = slotSet x s := by
  induction l generalizing s with
  | nil => rfl
  | cons st rest ih =>
    simp only [execSchedule]
    cases hn : runNode fs ag st s with
    | error e => rfl
    | ok u =>
      have hnw : updWrites x u = false := by
        by_contra hc
        have := runNode_writes_only hn (by simpa using hc)
        exact hw (by simp [this])
      rw [ih _ fun hm => hw (List.mem_cons_of_mem _ hm)]
      simp [slotSet_applyUpdate, hnw]

/-- After a fully successful execution of a list containing a stage that
always writes slot `x`, slot `x` is populated. -/
theorem exec_ok_slot_set (fs : FS) (ag : Agents) (l : List Stage)
    (s : WorkflowState) (st : Stage) (x : SlotName) (hmem : st ∈ l)
    (hslot : stageSlot st = some x)
    (hok : (execSchedule fs ag l s).2 = none) :
    slotSet x (execSchedule fs ag l s).1 = true := by
  induction l generalizing s with
  | nil => cases hmem
  | cons a rest ih =>
    simp only [execSchedule] at hok ⊢
    cases hn : runNode fs ag a s with
    | error e => rw [hn] at hok; simp at hok
    | ok u =>
      rw [hn] at hok
      rcases List.mem_cons.mp hmem with h | h
      · subst h
        have hwr : updWrites x u = true := runNode_ok_writes_own hslot hn
        exact exec_preserves_slotSet fs ag rest _ x
          (by simp [slotSet_applyUpdate, hwr])
      · exact ih _ h hok

/-! ## Lemmas about schedules -/

theorem takeWhile_append_middle {α : Type _} (p : α → Bool) (pre post : List α)
    (b : α) (hpre : ∀ a ∈ pre, p a = true) (hb : p b = false) :
    (pre ++ b :: post).takeWhile p = pre := by
  induction pre with
  | nil => simp [List.takeWhile_cons, hb]
  | cons a t ih =>
    have ha := hpre a (by simp)
    simp [List.takeWhile_cons, ha, ih fun c hc => hpre c (by simp [hc])]

/-- In a valid schedule, the source of every edge into a scheduled stage is
dispatched strictly before that stage. -/
theorem isSchedule_pred_mem {sched pre post : List Stage} {a b : Stage}
    (hs : IsSchedule sched) (hdec : sched = pre ++ b :: post)
    (he : (a, b) ∈ workflowEdges) : a ∈ pre := by
  obtain ⟨hnd, hresp⟩ := hs
  subst hdec
  have hbpre : b ∉ pre := by
    rw [List.nodup_append] at hnd
    exact fun hb => hnd.2.2 hb (by simp)
  have hmem : b ∈ pre ++ b :: post := by simp
  have hres := hresp (a, b) he hmem
  rwa [takeWhile_append_middle _ pre post b
    (fun c hc => by simp; rintro rfl; exact hbpre hc) (by simp)] at hres

/-! ## Commuting the evaluator fan-out -/

/-- Two execution outcomes are interchangeable for the run's caller: equal
final states when both succeed, or both failed (the caller never sees the
failure tag). -/
def outcomeEquiv :
    WorkflowState × Option (Stage × Err) → WorkflowState × Option (Stage × Err) → Prop
  | (s₁, none), (s₂, none) => s₁ = s₂
  | (_, some _), (_, some _) => True
  | _, _ => False

theorem outcomeEquiv_refl (r : WorkflowState × Option (Stage × Err)) :
    outcomeEquiv r r := by
  rcases r with ⟨s, _ | e⟩ <;> simp [outcomeEquiv]

theorem outcomeEquiv_trans {a b c : WorkflowState × Option (Stage × Err)}
    (h₁ : outcomeEquiv a b) (h₂ : outcomeEquiv b c) : outcomeEquiv a c := by
  rcases a with ⟨sa, _ | ea⟩ <;> rcases b with ⟨sb, _ | eb⟩ <;>
    rcases c with ⟨sc, _ | ec⟩ <;> simp_all [outcomeEquiv]

/-- An evaluator node reads only `cv_data` and `job_description`. -/
theorem evaluatorNode_congr {fs : FS} {ag : Agents} {e : Stage}
    (he : isEvaluator e = true) {s s' : WorkflowState}
    (hcv : s.cv_data = s'.cv_data) (hjd : s.job_description = s'.job_description) :
    runNode fs ag e s = runNode fs ag e s' := by
  cases e <;> simp [isEvaluator] at he <;>
    simp only [runNode, matchSkillsNode, evaluateExperienceNode,
      assessCultureFitNode, hcv, hjd]

/-- An evaluator's successful update leaves `cv_data` and `job_description`
untouched in any state it is merged into. -/
theorem evaluator_update_fields {fs : FS} {ag : Agents} {e : Stage}
    (he : isEvaluator e = true) {s : WorkflowState} {u : Update}
    (hok : runNode fs ag e s = .ok u) (t : WorkflowState) :
    (applyUpdate t u).cv_data = t.cv_data ∧
      (applyUpdate t u).job_description = t.job_description := by
  cases e <;> simp [isEvaluator] at he <;> simp only [runNode] at hok
  case match_skills =>
    obtain ⟨r, rfl⟩ := matchSkillsNode_ok_shape hok
    exact ⟨rfl, rfl⟩
  case evaluate_experience =>
    obtain ⟨r, rfl⟩ := evaluateExperienceNode_ok_shape hok
    exact ⟨rfl, rfl⟩
  case assess_culture_fit =>
    obtain ⟨r, rfl⟩ := assessCultureFitNode_ok_shape hok
    exact ⟨rfl, rfl⟩

/-- Merges of successful updates of two distinct evaluators commute: they
write disjoint slots. -/
theorem evaluator_update_comm {fs : FS} {ag : Agents} {a b : Stage}
    (ha : isEvaluator a = true) (hb : isEvaluator b = true) (hab : a ≠ b)
    {sa sb : WorkflowState} {ua ub : Update}
    (hoka : runNode fs ag a sa = .ok ua) (hokb : runNode fs ag b sb = .ok ub)
    (s : WorkflowState) :
    applyUpdate (applyUpdate s ua) ub = applyUpdate (applyUpdate s ub) ua := by
  cases a <;> simp [isEvaluator] at ha <;>
    cases b <;> simp [isEvaluator] at hb <;>
    simp only [runNode] at hoka hokb
  all_goals
    first
      | exact absurd rfl hab
      | (first
          | obtain ⟨ra, rfl⟩ := matchSkillsNode_ok_shape hoka
          | obtain ⟨ra, rfl⟩ := evaluateExperienceNode_ok_shape hoka
          | obtain ⟨ra, rfl⟩ := assessCultureFitNode_ok_shape hoka
         first
          | obtain ⟨rb, rfl⟩ := matchSkillsNode_ok_shape hokb
          | obtain ⟨rb, rfl⟩ := evaluateExperienceNode_ok_shape hokb
          | obtain ⟨rb, rfl⟩ := assessCultureFitNode_ok_shape hokb
         simp [applyUpdate, Option.orElse])

/-- Swapping two adjacent evaluator dispatches yields an interchangeable
outcome. -/
theorem exec_swap_evaluators (fs : FS) (ag : Agents) {a b : Stage}
    (ha : isEvaluator a = true) (hb : isEvaluator b = true) (l : List Stage)
    (s : WorkflowState) :
    outcomeEquiv (execSchedule fs ag (a :: b :: l) s)
      (execSchedule fs ag (b :: a :: l) s) := by
  by_cases hab : a = b
  · subst hab; exact outcomeEquiv_refl _
  simp only [execSchedule]
  cases hra : runNode fs ag a s with
  | error ea =>
    cases hrb : runNode fs ag b s with
    | error eb => simp [outcomeEquiv]
    | ok ub =>
      obtain ⟨hcv, hjd⟩ := evaluator_update_fields hb hrb s
      have hra' : runNode fs ag a (applyUpdate s ub) = .error ea := by
        rw [evaluatorNode_congr ha hcv hjd]; exact hra
      simp [execSchedule, hra', outcomeEquiv]
  | ok ua =>
    obtain ⟨hcva, hjda⟩ := evaluator_update_fields ha hra s
    cases hrb : runNode fs ag b s with
    | error eb =>
      have hrb' : runNode fs ag b (applyUpdate s ua) = .error eb := by
        rw [evaluatorNode_congr hb hcva hjda]; exact hrb
      simp [execSchedule, hrb', outcomeEquiv]
    | ok ub =>
      obtain ⟨hcvb, hjdb⟩ := evaluator_update_fields hb hrb s
      have hrb' : runNode fs ag b (applyUpdate s ua) = .ok ub := by
        rw [evaluatorNode_congr hb hcva hjda]; exact hrb
      have hra' : runNode fs ag a (applyUpdate s ub) = .ok ua := by
        rw [evaluatorNode_congr ha hcvb hjdb]; exact hra
      have hcomm := evaluator_update_comm ha hb hab hra hrb s
      simp only [execSchedule, hrb', hra', hcomm]
      exact outcomeEquiv_refl _

/-- Permuting a block of evaluator dispatches yields an interchangeable
outcome, whatever follows. -/
theorem exec_perm_evaluators (fs : FS) (ag : Agents) {p₁ p₂ : List Stage}
    (hp : p₁.Perm p₂) :
    (∀ x ∈ p₁, isEvaluator x = true) →
    ∀ l s, outcomeEquiv (execSchedule fs ag (p₁ ++ l) s)
      (execSchedule fs ag (p₂ ++ l) s) := by
  induction hp with
  | nil => exact fun _ l s => outcomeEquiv_refl _
  | cons x hp ih =>
    intro hev l s
    simp only [List.cons_append, execSchedule]
    cases runNode fs ag x s with
    | error e => simp [outcomeEquiv]
    | ok u => exact ih (fun y hy => hev y (List.mem_cons_of_mem _ hy)) l _
  | swap x y t =>
    intro hev l s
    have hx : isEvaluator x = true := hev x (by simp)
    have hy : isEvaluator y = true := hev y (by simp)
    simpa using exec_swap_evaluators fs ag hy hx (t ++ l) s
  | trans h₁ _ ih₁ ih₂ =>
    intro hev l s
    exact outcomeEquiv_trans (ih₁ hev l s)
      (ih₂ (fun x hx => hev x (h₁.mem_iff.mpr hx)) l s)

/-! ## Inversion lemmas: what a successful node run tells us -/

theorem loadDocumentsNode_ok_inv {fs : FS} {s : WorkflowState} {u : Update}
    (hok : loadDocumentsNode fs s = .ok u) :
    (optStrTruthy s.cv_file_path = true →
       ∃ t, parse_document fs (s.cv_file_path.getD "") = .ok t ∧ u.cv_text = some t) ∧
    (optStrTruthy s.cv_file_path = false → u.cv_text = none) ∧
    (optStrTruthy s.job_description_path = true →
       ∃ t, parse_document fs (s.job_description_path.getD "") = .ok t ∧
         u.job_text = some t) ∧
    (optStrTruthy s.job_description_path = false → u.job_text = none) := by
  unfold loadDocumentsNode at hok
  split at hok
  · cases hok
  rename_i u1 heq1
  have hu1 : (optStrTruthy s.cv_file_path = true →
        ∃ t, parse_document fs (s.cv_file_path.getD "") = .ok t ∧ u1.cv_text = some t) ∧
      (optStrTruthy s.cv_file_path = false → u1.cv_text = none) ∧
      u1.job_text = none := by
    split at heq1
    · rename_i hcvt
      split at heq1
      · cases heq1
        rename_i t hpd
        exact ⟨fun _ => ⟨t, hpd, rfl⟩, fun hf => by simp [hcvt] at hf, rfl⟩
      · cases heq1
    · rename_i hcvf
      cases heq1
      exact ⟨fun ht => absurd ht hcvf, fun _ => rfl, rfl⟩
  obtain ⟨hcv_t, hcv_f, hu1job⟩ := hu1
  split at hok
  · rename_i hjobt
    split at hok
    · cases hok
      rename_i t hpd
      exact ⟨hcv_t, hcv_f, fun _ => ⟨t, hpd, rfl⟩, fun hf => by simp [hjobt] at hf⟩
    · cases hok
  · rename_i hjobf
    cases hok
    exact ⟨hcv_t, hcv_f, fun ht => absurd ht hjobf, fun _ => hu1job⟩

/-- `_load_documents` when only the CV path is truthy. -/
theorem loadDocumentsNode_cv_only {fs : FS} {s : WorkflowState} {t : String}
    (hcv0 : optStrTruthy s.cv_file_path = true)
    (hjd0 : optStrTruthy s.job_description_path = false)
    (hpd : parse_document fs (s.cv_file_path.getD "") = .ok t) :
    loadDocumentsNode fs s = .ok { cv_text := some t } := by
  unfold loadDocumentsNode
  rw [if_pos hcv0, hpd]
  show (if optStrTruthy s.job_description_path = true then
      match parse_document fs (s.job_description_path.getD "") with
      | Except.ok t2 => Except.ok { cv_text := some t, job_text := some t2 }
      | Except.error e => Except.error (Err.doc e)
    else Except.ok { cv_text := some t }) = Except.ok ({ cv_text := some t } : Update)
  rw [if_neg (by simp [hjd0])]

/-- `_load_documents` when only the job path is truthy. -/
theorem loadDocumentsNode_job_only {fs : FS} {s : WorkflowState} {t : String}
    (hcv0 : optStrTruthy s.cv_file_path = false)
    (hjd0 : optStrTruthy s.job_description_path = true)
    (hpd : parse_document fs (s.job_description_path.getD "") = .ok t) :
    loadDocumentsNode fs s = .ok { job_text := some t } := by
  unfold loadDocumentsNode
  rw [if_neg (by simp [hcv0])]
  show (if optStrTruthy s.job_description_path = true then
      match parse_document fs (s.job_description_path.getD "") with
      | Except.ok t2 => Except.ok { job_text := some t2 }
      | Except.error e => Except.error (Err.doc e)
    else Except.ok {}) = Except.ok ({ job_text := some t } : Update)
  rw [if_pos hjd0, hpd]

theorem parseCVNode_ok_inv {ag : Agents} {s : WorkflowState} {u : Update}
    (hok : parseCVNode ag s = .ok u) :
    ∃ t d, s.cv_text = some t ∧ t ≠ "" ∧ ag.parse_cv t = .ok d ∧
      u = { cv_data := some d } := by
  unfold parseCVNode at hok
  rcases hcv : s.cv_text with _ | t <;> rw [hcv] at hok
  · simp [optStrTruthy] at hok
  · by_cases ht : t = ""
    · subst ht; simp [optStrTruthy] at hok
    · simp only [optStrTruthy, Option.getD] at hok
      rw [if_pos (by simp [ht])] at hok
      split at hok
      · cases hok; rename_i d hd; exact ⟨t, d, rfl, ht, hd, rfl⟩
      · cases hok

theorem analyzeJobNode_ok_inv {ag : Agents} {s : WorkflowState} {u : Update}
    (hok : analyzeJobNode ag s = .ok u) :
    ∃ t d, s.job_text = some t ∧ t ≠ "" ∧ ag.analyze_job t = .ok d ∧
      u = { job_description := some d } := by
  unfold analyzeJobNode at hok
  rcases hjt : s.job_text with _ | t <;> rw [hjt] at hok
  · simp [optStrTruthy] at hok
  · by_cases ht : t = ""
    · subst ht; simp [optStrTruthy] at hok
    · simp only [optStrTruthy, Option.getD] at hok
      rw [if_pos (by simp [ht])] at hok
      split at hok
      · cases hok; rename_i d hd; exact ⟨t, d, rfl, ht, hd, rfl⟩
      · cases hok

theorem matchSkillsNode_ok_inv {ag : Agents} {s : WorkflowState} {u : Update}
    (hok : matchSkillsNode ag s = .ok u) :
    ∃ cvd jd r, s.cv_data = some cvd ∧ s.job_description = some jd ∧
      ag.match_skills cvd jd = .ok r ∧ u = { skill_match := some r } := by
  unfold matchSkillsNode at hok
  split at hok
  · rename_i cvd jd hcv hjd
    split at hok
    · cases hok; rename_i r hr; exact ⟨cvd, jd, r, hcv, hjd, hr, rfl⟩
    · cases hok
  · cases hok

theorem evaluateExperienceNode_ok_inv {ag : Agents} {s : WorkflowState} {u : Update}
    (hok : evaluateExperienceNode ag s = .ok u) :
    ∃ cvd jd r, s.cv_data = some cvd ∧ s.job_description = some jd ∧
      ag.evaluate_experience cvd jd = .ok r ∧
      u = { experience_evaluation := some r } := by
  unfold evaluateExperienceNode at hok
  split at hok
  · rename_i cvd jd hcv hjd
    split at hok
    · cases hok; rename_i r hr; exact ⟨cvd, jd, r, hcv, hjd, hr, rfl⟩
    · cases hok
  · cases hok

theorem assessCultureFitNode_ok_inv {ag : Agents} {s : WorkflowState} {u : Update}
    (hok : assessCultureFitNode ag s = .ok u) :
    ∃ cvd jd r, s.cv_data = some cvd ∧ s.job_description = some jd ∧
      ag.assess_culture_fit cvd jd = .ok r ∧ u = { culture_fit := some r } := by
  unfold assessCultureFitNode at hok
  split at hok
  · rename_i cvd jd hcv hjd
    split at hok
    · cases hok; rename_i r hr; exact ⟨cvd, jd, r, hcv, hjd, hr, rfl⟩
    · cases hok
  · cases hok

theorem create_final_assessment_ok_inv {ag : Agents} {cvd : CVData}
    {jd : JobDescription} {sm : SkillMatchResult} {ee : ExperienceEvaluation}
    {cf : CultureFitAssessment} {r : AssessmentResult}
    (hok : create_final_assessment ag cvd jd sm ee cf = .ok r) :
    ∃ dts, ag.scorer_details cvd jd sm ee cf
        (sm.match_score * (4 / 10) + ee.experience_score * (4 / 10)
          + cf.culture_fit_score * (2 / 10)) = .ok dts ∧
      r = { cv_data := cvd, job_description := jd, skill_match := sm,
            experience_evaluation := ee, culture_fit := cf,
            overall_score :=
              sm.match_score * (4 / 10) + ee.experience_score * (4 / 10)
                + cf.culture_fit_score * (2 / 10),
            recommendation := dts.recommendation, strengths := dts.strengths,
            concerns := dts.concerns, summary := dts.summary,
            timestamp := ag.now } := by
  unfold create_final_assessment at hok
  split at hok
  · cases hok
  · cases hok; rename_i dts hd; exact ⟨dts, hd, rfl⟩

theorem createFinalAssessmentNode_ok_inv {ag : Agents} {s : WorkflowState}
    {u : Update} (hok : createFinalAssessmentNode ag s = .ok u) :
    ∃ cvd jd sm ee cf r, s.cv_data = some cvd ∧ s.job_description = some jd ∧
      s.skill_match = some sm ∧ s.experience_evaluation = some ee ∧
      s.culture_fit = some cf ∧ create_final_assessment ag cvd jd sm ee cf = .ok r ∧
      u = { assessment_result := some r } := by
  unfold createFinalAssessmentNode at hok
  split at hok
  · rename_i cvd jd sm ee cf h1 h2 h3 h4 h5
    split at hok
    · cases hok; rename_i r hr
      exact ⟨cvd, jd, sm, ee, cf, r, h1, h2, h3, h4, h5, hr, rfl⟩
    · cases hok
  · cases hok

/-! ## Inversion lemmas: execution -/

theorem exec_cons_ok_inv {fs : FS} {ag : Agents} {st : Stage} {rest : List Stage}
    {s s' : WorkflowState}
    (h : execSchedule fs ag (st :: rest) s = (s', none)) :
    ∃ u, runNode fs ag st s = .ok u ∧
      execSchedule fs ag rest (applyUpdate s u) = (s', none) := by
  simp only [execSchedule] at h
  cases hr : runNode fs ag st s with
  | error e => rw [hr] at h; simp at h
  | ok u => rw [hr] at h; exact ⟨u, rfl, h⟩

theorem exec_nil_inv {fs : FS} {ag : Agents} {s s' : WorkflowState}
    (h : execSchedule fs ag [] s = (s', none)) : s = s' := by
  simp only [execSchedule] at h
  exact congrArg Prod.fst h

theorem execSchedule_cons_ok {fs : FS} {ag : Agents} {st : Stage}
    {rest : List Stage} {s : WorkflowState} {u : Update}
    (h : runNode fs ag st s = .ok u) :
    execSchedule fs ag (st :: rest) s = execSchedule fs ag rest (applyUpdate s u) := by
  simp [execSchedule, h]

theorem execSchedule_cons_err {fs : FS} {ag : Agents} {st : Stage}
    {rest : List Stage} {s : WorkflowState} {e : Err}
    (h : runNode fs ag st s = .error e) :
    execSchedule fs ag (st :: rest) s = (s, some (st, e)) := by
  simp [execSchedule, h]


/-- A failing execution decomposes into a successful prefix and the raising
stage. -/
theorem exec_fail_decomp (fs : FS) (ag : Agents) (l : List Stage)
    (s₀ : WorkflowState) {s : WorkflowState} {st : Stage} {e : Err}
    (h : execSchedule fs ag l s₀ = (s, some (st, e))) :
    ∃ pre post, l = pre ++ st :: post ∧
      execSchedule fs ag pre s₀ = (s, none) ∧ runNode fs ag st s = .error e := by
  induction l generalizing s₀ with
  | nil => simp [execSchedule] at h
  | cons a rest ih =>
    simp only [execSchedule] at h
    cases hr : runNode fs ag a s₀ with
    | ok u =>
      rw [hr] at h
      obtain ⟨pre, post, hl, hp, hn⟩ := ih _ h
      exact ⟨a :: pre, post, by rw [hl]; rfl,
        by simp only [execSchedule, hr]; exact hp, hn⟩
    | error e' =>
      rw [hr] at h
      obtain ⟨hs, hst, he⟩ : s₀ = s ∧ a = st ∧ e' = e := by
        simpa using h
      subst hs; subst hst; subst he
      exact ⟨[], rest, rfl, rfl, hr⟩

theorem orElse_none_right {α : Type _} (a : Option α) :
    (a.orElse fun _ => none) = a := by cases a <;> rfl

/-! ## Claims -/

/-- **C6**: for every path given to the document loader, it fails with a
not-found error if and only if the path does not resolve to an existing
file, fails with an unsupported-format error if and only if the file exists
but its (lower-cased) extension is outside the recognized set
`.pdf .docx .txt .md .json`, and otherwise returns the document's text
content. -/
theorem parse_document_taxonomy (fs : FS) (p : String) :
    ((∃ m, parse_document fs p = .error (.fileNotFound m)) ↔
      fs.existsFile p = false) ∧
    ((∃ m, parse_document fs p = .error (.unsupportedFormat m)) ↔
      fs.existsFile p = true ∧ strLower (pythonSuffix p) ∉ supportedExtensions) ∧
    (fs.existsFile p = true → strLower (pythonSuffix p) ∈ supportedExtensions →
      parse_document fs p = .ok ((fs.lookupFile p).getD "")) := by
  unfold parse_document
  by_cases hex : fs.existsFile p = true
  · rw [if_neg (by simp [hex])]
    split_ifs with h1 h2 h3 h4 <;>
      first
        | (rcases h3 with h3 | h3 <;>
            simp_all [supportedExtensions, parse_pdf, parse_docx, parse_txt,
              parse_json_dump])
        | simp_all [supportedExtensions, parse_pdf, parse_docx, parse_txt,
            parse_json_dump]
  · rw [if_pos (by simpa using hex)]
    simp_all [supportedExtensions]

/-- Witness for C6: `cv.txt` exists in the stub file system with a
recognised extension, and the loader returns its text. -/
theorem parse_document_taxonomy_witness :
    stubFS.existsFile "cv.txt" = true ∧
    strLower (pythonSuffix "cv.txt") ∈ supportedExtensions ∧
    parse_document stubFS "cv.txt" = .ok "Jane Doe. Skills: Python, SQL." :=
  ⟨by decide, by decide,
    (parse_document_taxonomy stubFS "cv.txt").2.2 (by decide) (by decide)⟩

/-- **C4**: whenever the final scorer succeeds, the report's overall score
is the weighted sum `0.4·s + 0.4·e + 0.2·c` of the three evaluator scores,
and in the stub scenario (`s = 0.9`, `e = 0.8`, `c = 0.7`, stub aggregator
labelling by the ≥ 0.8 threshold) the overall score is `0.82` and the
recommendation is `"strong_match"`. -/
theorem overall_score_weighted_sum (ag : Agents) (cvd : CVData)
    (jd : JobDescription) (sm : SkillMatchResult) (ee : ExperienceEvaluation)
    (cf : CultureFitAssessment) (r : AssessmentResult)
    (hok : create_final_assessment ag cvd jd sm ee cf = .ok r) :
    r.overall_score = sm.match_score * (4 / 10) + ee.experience_score * (4 / 10)
      + cf.culture_fit_score * (2 / 10) ∧
    (ag = stubAgents → sm.match_score = 9 / 10 → ee.experience_score = 8 / 10 →
      cf.culture_fit_score = 7 / 10 →
      r.overall_score = 82 / 100 ∧ r.recommendation = "strong_match") := by
  obtain ⟨dts, hd, rfl⟩ := create_final_assessment_ok_inv hok
  refine ⟨rfl, ?_⟩
  rintro rfl h1 h2 h3
  rw [h1, h2, h3] at hd ⊢
  refine ⟨by norm_num, ?_⟩
  simp only [stubAgents] at hd
  cases hd
  show recommendationLabel _ = "strong_match"
  unfold recommendationLabel
  rw [if_pos (by norm_num)]

/-- The report the stub scenario produces, each field spelt exactly as
`create_final_assessment` computes it. -/
def stubReport : AssessmentResult :=
  { cv_data := stubCV, job_description := stubJob, skill_match := stubSkillMatch,
    experience_evaluation := stubExperience, culture_fit := stubCulture,
    overall_score := stubSkillMatch.match_score * (4 / 10)
      + stubExperience.experience_score * (4 / 10)
      + stubCulture.culture_fit_score * (2 / 10),
    recommendation := recommendationLabel (stubSkillMatch.match_score * (4 / 10)
      + stubExperience.experience_score * (4 / 10)
      + stubCulture.culture_fit_score * (2 / 10)),
    strengths := ["Strong core skills"], concerns := ["Missing Spark"],
    summary := "Well qualified overall.", timestamp := 0 }

/-- The run state after the six pre-aggregation stages of the stub run. -/
def stubStateSix : WorkflowState :=
  { cv_file_path := some "cv.txt", job_description_path := some "job.txt",
    cv_text := some "Jane Doe. Skills: Python, SQL.",
    job_text := some "Data Scientist. Required: Python, Spark.",
    cv_data := some stubCV, job_description := some stubJob,
    skill_match := some stubSkillMatch,
    experience_evaluation := some stubExperience,
    culture_fit := some stubCulture, assessment_result := none }

theorem stub_score_match : stubSkillMatch.match_score = 9 / 10 := by
  show (mkRat 9 10 : ℚ) = 9 / 10
  rw [Rat.mkRat_eq_div]; norm_num

theorem stub_score_experience : stubExperience.experience_score = 8 / 10 := by
  show (mkRat 8 10 : ℚ) = 8 / 10
  rw [Rat.mkRat_eq_div]; norm_num

theorem stub_score_culture : stubCulture.culture_fit_score = 7 / 10 := by
  show (mkRat 7 10 : ℚ) = 7 / 10
  rw [Rat.mkRat_eq_div]; norm_num

/-- Witness for C4: the stub scenario evaluated. -/
theorem overall_score_weighted_sum_witness :
    create_final_assessment stubAgents stubCV stubJob stubSkillMatch
        stubExperience stubCulture = .ok stubReport ∧
    stubReport.overall_score = 82 / 100 ∧
    stubReport.recommendation = "strong_match" := by
  have h := overall_score_weighted_sum stubAgents stubCV stubJob stubSkillMatch
    stubExperience stubCulture stubReport rfl
  exact ⟨rfl, h.2 rfl stub_score_match stub_score_experience stub_score_culture⟩

/-- **C9**: if the three component scores lie in `[0, 1]`, the overall score
of the report built by `create_final_assessment` (through the
validation-bypassing `model_construct`) also lies in `[0, 1]`. -/
theorem overall_score_within_bounds (ag : Agents) (cvd : CVData)
    (jd : JobDescription) (sm : SkillMatchResult) (ee : ExperienceEvaluation)
    (cf : CultureFitAssessment) (r : AssessmentResult)
    (h1 : 0 ≤ sm.match_score) (h2 : sm.match_score ≤ 1)
    (h3 : 0 ≤ ee.experience_score) (h4 : ee.experience_score ≤ 1)
    (h5 : 0 ≤ cf.culture_fit_score) (h6 : cf.culture_fit_score ≤ 1)
    (hok : create_final_assessment ag cvd jd sm ee cf = .ok r) :
    0 ≤ r.overall_score ∧ r.overall_score ≤ 1 := by
  obtain ⟨dts, hd, rfl⟩ := create_final_assessment_ok_inv hok
  constructor
  · show (0 : ℚ) ≤ sm.match_score * (4 / 10) + ee.experience_score * (4 / 10)
      + cf.culture_fit_score * (2 / 10)
    linarith
  · show sm.match_score * (4 / 10) + ee.experience_score * (4 / 10)
      + cf.culture_fit_score * (2 / 10) ≤ 1
    linarith

/-- Witness for C9 at the stub scores. -/
theorem overall_score_within_bounds_witness :
    (0 : ℚ) ≤ stubSkillMatch.match_score ∧ stubSkillMatch.match_score ≤ 1 ∧
    0 ≤ stubReport.overall_score ∧ stubReport.overall_score ≤ 1 := by
  have hb1 : (0 : ℚ) ≤ stubSkillMatch.match_score := by
    rw [stub_score_match]; norm_num
  have hb2 : stubSkillMatch.match_score ≤ 1 := by
    rw [stub_score_match]; norm_num
  have h := overall_score_within_bounds stubAgents stubCV stubJob stubSkillMatch
    stubExperience stubCulture stubReport hb1 hb2
    (by rw [stub_score_experience]; norm_num)
    (by rw [stub_score_experience]; norm_num)
    (by rw [stub_score_culture]; norm_num)
    (by rw [stub_score_culture]; norm_num) rfl
  exact ⟨hb1, hb2, h.1, h.2⟩

/-- **C8**: with fixed (deterministic, stubbed) collaborators a run is a
pure function of its inputs, so two runs over the same references produce
identical Run State slot values; and permuting the completion order of the
three evaluator stages changes neither the final state produced by a
successful invocation nor the run's outcome (the timestamp is the
collaborator-supplied clock value, identical here). -/
theorem evaluator_order_irrelevant (fs : FS) (ag : Agents) (cvp jobp : String)
    (perm : List Stage)
    (hp : perm.Perm [.match_skills, .evaluate_experience, .assess_culture_fit]) :
    invokeOn fs ag ([.load_documents, .parse_cv, .analyze_job] ++ perm
        ++ [.create_final_assessment]) (initialState cvp jobp)
      = invokeOn fs ag canonicalSchedule (initialState cvp jobp) ∧
    runOn fs ag ([.load_documents, .parse_cv, .analyze_job] ++ perm
        ++ [.create_final_assessment]) cvp jobp = run fs ag cvp jobp := by
  have hev : ∀ x ∈ perm, isEvaluator x = true := by
    intro x hx
    have hmem := hp.subset hx
    simp only [List.mem_cons, List.not_mem_nil, or_false] at hmem
    rcases hmem with rfl | rfl | rfl <;> rfl
  have hequiv : outcomeEquiv
      (execSchedule fs ag ([.load_documents, .parse_cv, .analyze_job] ++ perm
        ++ [.create_final_assessment]) (initialState cvp jobp))
      (execSchedule fs ag canonicalSchedule (initialState cvp jobp)) := by
    rw [show canonicalSchedule = [.load_documents, .parse_cv, .analyze_job]
      ++ ([.match_skills, .evaluate_experience, .assess_culture_fit]
        ++ [.create_final_assessment]) from rfl]
    rw [show [Stage.load_documents, .parse_cv, .analyze_job] ++ perm
        ++ [.create_final_assessment]
      = [Stage.load_documents, .parse_cv, .analyze_job]
        ++ (perm ++ [.create_final_assessment]) from by
          rw [List.append_assoc]]
    rw [execSchedule_append, execSchedule_append]
    rcases hpds : execSchedule fs ag [.load_documents, .parse_cv, .analyze_job]
      (initialState cvp jobp) with ⟨s3, _ | p⟩
    · exact exec_perm_evaluators fs ag hp hev [.create_final_assessment] s3
    · simp [outcomeEquiv]
  have hinv : invokeOn fs ag ([.load_documents, .parse_cv, .analyze_job] ++ perm
        ++ [.create_final_assessment]) (initialState cvp jobp)
      = invokeOn fs ag canonicalSchedule (initialState cvp jobp) := by
    unfold invokeOn
    rcases h1 : execSchedule fs ag ([.load_documents, .parse_cv, .analyze_job]
      ++ perm ++ [.create_final_assessment]) (initialState cvp jobp) with ⟨sa, ta⟩
    rcases h2 : execSchedule fs ag canonicalSchedule (initialState cvp jobp)
      with ⟨sb, tb⟩
    rw [h1, h2] at hequiv
    cases ta <;> cases tb <;> simp_all [outcomeEquiv]
  exact ⟨hinv, by unfold runOn run runOn; rw [hinv]⟩

/-- Witness for C8: a permuted evaluator order in the stub run yields the
same outcome as the canonical order. -/
theorem evaluator_order_irrelevant_witness :
    ([Stage.evaluate_experience, .assess_culture_fit, .match_skills].Perm
      [.match_skills, .evaluate_experience, .assess_culture_fit]) ∧
    runOn stubFS stubAgents ([.load_documents, .parse_cv, .analyze_job]
        ++ [.evaluate_experience, .assess_culture_fit, .match_skills]
        ++ [.create_final_assessment]) "cv.txt" "job.txt"
      = run stubFS stubAgents "cv.txt" "job.txt" := by
  have hp : ([Stage.evaluate_experience, .assess_culture_fit, .match_skills].Perm
      [.match_skills, .evaluate_experience, .assess_culture_fit]) := by decide
  exact ⟨hp, (evaluator_order_irrelevant stubFS stubAgents "cv.txt" "job.txt"
    _ hp).2⟩

/-- **C10**: a violated non-empty-reference precondition is not detected at
the document-loading stage: with a falsy `cv_file_path`, `load_documents`
completes successfully without writing `cv_text` (provided the other
reference loads), and the run fails later, in `parse_cv`, with
"No CV text available"; symmetrically, with an empty
`job_description_path` (and a loadable, parseable CV) the run fails in
`analyze_job` with "No job description text available". -/
theorem empty_reference_detected_late (fs : FS) (ag : Agents)
    (cvp jobp : String) (cvt jt : String) (cvd : CVData)
    (hjobp : jobp ≠ "") (hjob : parse_document fs jobp = .ok jt)
    (hcvp : cvp ≠ "") (hcv : parse_document fs cvp = .ok cvt) (hcvt : cvt ≠ "")
    (hparse : ag.parse_cv cvt = .ok cvd) :
    (∀ s : WorkflowState, (s.cv_file_path = none ∨ s.cv_file_path = some "") →
       s.job_description_path = some jobp →
       loadDocumentsNode fs s = .ok { job_text := some jt }) ∧
    firstFailure fs ag canonicalSchedule (initialState "" jobp)
      = some (.parse_cv, .valueError "No CV text available") ∧
    run fs ag "" jobp = none ∧
    firstFailure fs ag canonicalSchedule (initialState cvp "")
      = some (.analyze_job, .valueError "No job description text available") ∧
    run fs ag cvp "" = none := by
  have hload : ∀ s : WorkflowState,
      (s.cv_file_path = none ∨ s.cv_file_path = some "") →
      s.job_description_path = some jobp →
      loadDocumentsNode fs s = .ok { job_text := some jt } := by
    intro s hcv0 hjd0
    refine loadDocumentsNode_job_only ?_ ?_ ?_
    · rcases hcv0 with h | h <;> rw [h] <;> rfl
    · rw [hjd0]; simp [optStrTruthy, hjobp]
    · rw [hjd0]; exact hjob
  -- the run with an empty CV reference
  have hstep1 : runNode fs ag .load_documents (initialState "" jobp)
      = .ok { job_text := some jt } := by
    show loadDocumentsNode fs (initialState "" jobp) = _
    exact hload (initialState "" jobp) (Or.inr rfl) rfl
  have hstep2 : runNode fs ag .parse_cv
      (applyUpdate (initialState "" jobp) { job_text := some jt })
      = .error (.valueError "No CV text available") := rfl
  have hexec1 : execSchedule fs ag canonicalSchedule (initialState "" jobp)
      = (applyUpdate (initialState "" jobp) { job_text := some jt },
         some (.parse_cv, .valueError "No CV text available")) := by
    rw [show canonicalSchedule = Stage.load_documents :: Stage.parse_cv ::
      [Stage.analyze_job, .match_skills, .evaluate_experience,
       .assess_culture_fit, .create_final_assessment] from rfl]
    rw [execSchedule_cons_ok hstep1, execSchedule_cons_err hstep2]
  -- the run with an empty job reference
  have hload3 : loadDocumentsNode fs (initialState cvp "")
      = .ok { cv_text := some cvt } := by
    refine loadDocumentsNode_cv_only ?_ rfl ?_
    · simp [initialState, optStrTruthy, hcvp]
    · exact hcv
  have hstep1' : runNode fs ag .load_documents (initialState cvp "")
      = .ok { cv_text := some cvt } := by
    show loadDocumentsNode fs (initialState cvp "") = _
    exact hload3
  have hstep2' : runNode fs ag .parse_cv
      (applyUpdate (initialState cvp "") { cv_text := some cvt })
      = .ok { cv_data := some cvd } := by
    show parseCVNode ag _ = _
    unfold parseCVNode
    rw [if_pos (by simp [applyUpdate, initialState, optStrTruthy, Option.orElse, hcvt])]
    have hgd : ((applyUpdate (initialState cvp "")
        { cv_text := some cvt }).cv_text.getD "") = cvt := rfl
    rw [hgd, hparse]
  have hstep3' : runNode fs ag .analyze_job
      (applyUpdate (applyUpdate (initialState cvp "") { cv_text := some cvt })
        { cv_data := some cvd })
      = .error (.valueError "No job description text available") := rfl
  have hexec2 : execSchedule fs ag canonicalSchedule (initialState cvp "")
      = (applyUpdate (applyUpdate (initialState cvp "") { cv_text := some cvt })
          { cv_data := some cvd },
         some (.analyze_job, .valueError "No job description text available")) := by
    rw [show canonicalSchedule = Stage.load_documents :: Stage.parse_cv ::
      Stage.analyze_job :: [Stage.match_skills, .evaluate_experience,
       .assess_culture_fit, .create_final_assessment] from rfl]
    rw [execSchedule_cons_ok hstep1', execSchedule_cons_ok hstep2',
      execSchedule_cons_err hstep3']
  refine ⟨hload, ?_, ?_, ?_, ?_⟩
  · simp [firstFailure, hexec1]
  · simp [run, runOn, invokeOn, hexec1]
  · simp [firstFailure, hexec2]
  · simp [run, runOn, invokeOn, hexec2]

/-- Witness for C10 in the stub scenario with an emptied reference. -/
theorem empty_reference_detected_late_witness :
    "job.txt" ≠ "" ∧
    parse_document stubFS "job.txt"
      = .ok "Data Scientist. Required: Python, Spark." ∧
    firstFailure stubFS stubAgents canonicalSchedule (initialState "" "job.txt")
      = some (.parse_cv, .valueError "No CV text available") ∧
    run stubFS stubAgents "" "job.txt" = none ∧
    firstFailure stubFS stubAgents canonicalSchedule (initialState "cv.txt" "")
      = some (.analyze_job, .valueError "No job description text available") ∧
    run stubFS stubAgents "cv.txt" "" = none := by
  have h := empty_reference_detected_late stubFS stubAgents "cv.txt" "job.txt"
    "Jane Doe. Skills: Python, SQL." "Data Scientist. Required: Python, Spark."
    stubCV (by decide) (by decide) (by decide) (by decide) (by decide) rfl
  exact ⟨by decide, by decide, h.2.1, h.2.2.1, h.2.2.2.1, h.2.2.2.2⟩

/-- **C2**: in every realisable schedule, `parse_cv` and `analyze_job` are
dispatched only after `load_documents` completed, and an evaluator stage is
dispatched only on a state in which both `cv_data` (the CV record) and
`job_description` (the job record) are populated. -/
theorem evaluator_dispatch_after_inputs (fs : FS) (ag : Agents)
    (cvp jobp : String) (sched pre post : List Stage) (st : Stage)
    (s : WorkflowState) (hs : IsSchedule sched) (hdec : sched = pre ++ st :: post)
    (hpre : execSchedule fs ag pre (initialState cvp jobp) = (s, none)) :
    ((st = .parse_cv ∨ st = .analyze_job) → .load_documents ∈ pre) ∧
    (isEvaluator st = true →
      slotSet .cv_data s = true ∧ slotSet .job_description s = true) := by
  constructor
  · rintro (rfl | rfl)
    · exact isSchedule_pred_mem hs hdec (by simp [workflowEdges])
    · exact isSchedule_pred_mem hs hdec (by simp [workflowEdges])
  · intro hev
    have hpc : Stage.parse_cv ∈ pre := by
      cases st <;> simp [isEvaluator] at hev <;>
        exact isSchedule_pred_mem hs hdec (by simp [workflowEdges])
    have haj : Stage.analyze_job ∈ pre := by
      cases st <;> simp [isEvaluator] at hev <;>
        exact isSchedule_pred_mem hs hdec (by simp [workflowEdges])
    constructor
    · have h := exec_ok_slot_set fs ag pre (initialState cvp jobp) .parse_cv
        .cv_data hpc rfl (by rw [hpre])
      rwa [hpre] at h
    · have h := exec_ok_slot_set fs ag pre (initialState cvp jobp) .analyze_job
        .job_description haj rfl (by rw [hpre])
      rwa [hpre] at h

/-- Witness for C2: the canonical schedule dispatches `match_skills` with
both records populated in the stub scenario. -/
theorem evaluator_dispatch_after_inputs_witness :
    IsSchedule canonicalSchedule ∧
    slotSet .cv_data (execSchedule stubFS stubAgents
      [.load_documents, .parse_cv, .analyze_job]
      (initialState "cv.txt" "job.txt")).1 = true ∧
    slotSet .job_description (execSchedule stubFS stubAgents
      [.load_documents, .parse_cv, .analyze_job]
      (initialState "cv.txt" "job.txt")).1 = true := by
  have hpre : execSchedule stubFS stubAgents
      [.load_documents, .parse_cv, .analyze_job]
      (initialState "cv.txt" "job.txt")
      = ((execSchedule stubFS stubAgents
          [.load_documents, .parse_cv, .analyze_job]
          (initialState "cv.txt" "job.txt")).1, none) := by decide
  have h := evaluator_dispatch_after_inputs stubFS stubAgents "cv.txt" "job.txt"
    canonicalSchedule [.load_documents, .parse_cv, .analyze_job]
    [.evaluate_experience, .assess_culture_fit, .create_final_assessment]
    .match_skills _ (by decide) (by decide) hpre
  exact ⟨by decide, (h.2 rfl).1, (h.2 rfl).2⟩

/-- **C7**: every slot is written at most once per run: a node's returned
update only writes the slots that node owns, and at the moment a node's
update is merged, every slot it writes is still unset. -/
theorem runstate_write_once (fs : FS) (ag : Agents) (cvp jobp : String)
    (sched pre post : List Stage) (st : Stage) (s : WorkflowState) (u : Update)
    (x : SlotName) (hs : IsSchedule sched) (hdec : sched = pre ++ st :: post)
    (hpre : execSchedule fs ag pre (initialState cvp jobp) = (s, none))
    (hok : runNode fs ag st s = .ok u) (hw : updWrites x u = true) :
    slotWriter x = st ∧ slotSet x s = false := by
  have hwr := runNode_writes_only hok hw
  refine ⟨hwr, ?_⟩
  have hstpre : st ∉ pre := by
    have hnd := hs.1
    rw [hdec, List.nodup_append] at hnd
    exact fun hm => hnd.2.2 hm (by simp)
  have hwpre : slotWriter x ∉ pre := by rw [hwr]; exact hstpre
  have hu := exec_slot_unchanged fs ag pre (initialState cvp jobp) x hwpre
  rw [hpre] at hu
  rw [hu]
  cases x <;> rfl

/-- **C1** (amended): for every invocation of `run`, the outcome is either
the populated final report — when all stages succeed — or `None`: the
first failing stage's identity and underlying error are logged inside the
engine but are not carried by the value returned to the caller. -/
theorem run_outcome_report_or_none (fs : FS) (ag : Agents) (cvp jobp : String) :
    (∃ s r, execSchedule fs ag canonicalSchedule (initialState cvp jobp)
        = (s, none) ∧
      s.assessment_result = some r ∧ run fs ag cvp jobp = some r) ∨
    (∃ s st e, execSchedule fs ag canonicalSchedule (initialState cvp jobp)
        = (s, some (st, e)) ∧ run fs ag cvp jobp = none) := by
  rcases hex : execSchedule fs ag canonicalSchedule (initialState cvp jobp)
    with ⟨s, tag⟩
  cases tag with
  | none =>
    left
    have hset : slotSet .assessment_result s = true := by
      have h := exec_ok_slot_set fs ag canonicalSchedule (initialState cvp jobp)
        .create_final_assessment .assessment_result (by decide) rfl (by rw [hex])
      rwa [hex] at h
    rcases hr : s.assessment_result with _ | r
    · simp [slotSet, hr] at hset
    · exact ⟨s, r, rfl, hr, by simp [run, runOn, invokeOn, hex, hr]⟩
  | some p =>
    rcases p with ⟨st, e⟩
    right
    exact ⟨s, st, e, rfl, by simp [run, runOn, invokeOn, hex]⟩

/-- Counterexample for C1 as stated: two runs whose first failures occur at
different stages with different underlying errors produce the same
caller-visible outcome `None`, so the outcome surfaces neither the failed
stage's identity nor its error. -/
theorem run_failure_outcome_untagged :
    firstFailure fsNoCV stubAgents canonicalSchedule
        (initialState "cv.txt" "job.txt")
      = some (.load_documents, .doc (.fileNotFound "File not found: cv.txt")) ∧
    firstFailure stubFS agentsJobFail canonicalSchedule
        (initialState "cv.txt" "job.txt")
      = some (.analyze_job, .agent "ExtractionFailure") ∧
    run fsNoCV stubAgents "cv.txt" "job.txt" = none ∧
    run stubFS agentsJobFail "cv.txt" "job.txt" = none ∧
    run fsNoCV stubAgents "cv.txt" "job.txt"
      = run stubFS agentsJobFail "cv.txt" "job.txt" :=
  ⟨by decide, by decide, by decide, by decide, by decide⟩

/-- **C3** (amended): when any stage of the canonical run fails,
`final_report` is never populated, every slot owned by a stage strictly
downstream of the failed stage remains unset, and `run` returns `None`
(the failed stage is identified only in the engine's log, not in the
returned outcome). -/
theorem stage_failure_leaves_downstream_unset (fs : FS) (ag : Agents)
    (cvp jobp : String) (st : Stage) (e : Err) (s : WorkflowState)
    (hfail : execSchedule fs ag canonicalSchedule (initialState cvp jobp)
      = (s, some (st, e))) :
    s.assessment_result = none ∧
    (∀ x : SlotName, downstream st (slotWriter x) = true → slotSet x s = false) ∧
    run fs ag cvp jobp = none := by
  obtain ⟨pre, post, hl, hp, hn⟩ := exec_fail_decomp fs ag canonicalSchedule _ hfail
  have hnd : canonicalSchedule.Nodup := by decide
  have hstpre : st ∉ pre := by
    rw [hl, List.nodup_append] at hnd
    exact fun hm => hnd.2.2 hm (by simp)
  have hpre_eq : pre = canonicalSchedule.takeWhile (fun a => a != st) := by
    conv_rhs => rw [hl]
    rw [takeWhile_append_middle _ pre post st
      (fun c hc => by simp; rintro rfl; exact hstpre hc) (by simp)]
  have hslot : ∀ x : SlotName, slotWriter x ∉ pre → slotSet x s = false := by
    intro x hx
    have hu := exec_slot_unchanged fs ag pre (initialState cvp jobp) x hx
    rw [hp] at hu
    rw [hu]; cases x <;> rfl
  have hkey : Stage.create_final_assessment
      ∉ canonicalSchedule.takeWhile (fun a => a != st) := by
    cases st <;> decide
  have hdw : ∀ x : SlotName, downstream st (slotWriter x) = true →
      slotWriter x ∉ canonicalSchedule.takeWhile (fun a => a != st) := by
    intro x
    cases st <;> cases x <;> decide
  refine ⟨?_, ?_, ?_⟩
  · have hfin := hslot .assessment_result (by rw [hpre_eq]; exact hkey)
    rcases hres : s.assessment_result with _ | r
    · rfl
    · simp [slotSet, hres] at hfin
  · exact fun x hdown => hslot x (by rw [hpre_eq]; exact hdw x hdown)
  · simp [run, runOn, invokeOn, hfail]

/-- Witness for C3 (amended) at the spec's scenario: `analyze_job` raises
`ExtractionFailure`; the evaluator and report slots stay unset and `run`
returns `None`. -/
theorem stage_failure_leaves_downstream_unset_witness :
    (execSchedule stubFS agentsJobFail canonicalSchedule
      (initialState "cv.txt" "job.txt")).1.assessment_result = none ∧
    slotSet .skill_match (execSchedule stubFS agentsJobFail canonicalSchedule
      (initialState "cv.txt" "job.txt")).1 = false ∧
    slotSet .experience_evaluation (execSchedule stubFS agentsJobFail
      canonicalSchedule (initialState "cv.txt" "job.txt")).1 = false ∧
    slotSet .culture_fit (execSchedule stubFS agentsJobFail canonicalSchedule
      (initialState "cv.txt" "job.txt")).1 = false ∧
    run stubFS agentsJobFail "cv.txt" "job.txt" = none := by
  have hfail : execSchedule stubFS agentsJobFail canonicalSchedule
      (initialState "cv.txt" "job.txt")
      = ((execSchedule stubFS agentsJobFail canonicalSchedule
          (initialState "cv.txt" "job.txt")).1,
         some (.analyze_job, .agent "ExtractionFailure")) := by decide
  have h := stage_failure_leaves_downstream_unset stubFS agentsJobFail
    "cv.txt" "job.txt" .analyze_job (.agent "ExtractionFailure") _ hfail
  exact ⟨h.1, h.2.1 .skill_match (by decide),
    h.2.1 .experience_evaluation (by decide),
    h.2.1 .culture_fit (by decide), h.2.2⟩

/-- Counterexample for C3's "the outcome identifies exactly the stage that
failed": a run failing in `analyze_job` and a run failing in `match_skills`
return identical outcomes (`None`). -/
theorem analyze_job_failure_outcome_untagged :
    firstFailure stubFS agentsJobFail canonicalSchedule
        (initialState "cv.txt" "job.txt")
      = some (.analyze_job, .agent "ExtractionFailure") ∧
    firstFailure stubFS agentsSkillsFail canonicalSchedule
        (initialState "cv.txt" "job.txt")
      = some (.match_skills, .agent "ProviderError") ∧
    run stubFS agentsJobFail "cv.txt" "job.txt" = none ∧
    run stubFS agentsJobFail "cv.txt" "job.txt"
      = run stubFS agentsSkillsFail "cv.txt" "job.txt" :=
  ⟨by decide, by decide, by decide, by decide⟩

/-- Witness for C7: `parse_cv`'s update in the stub run writes `cv_data`,
a slot still unset after `load_documents`. -/
theorem runstate_write_once_witness :
    runNode stubFS stubAgents .parse_cv
        (execSchedule stubFS stubAgents [.load_documents]
          (initialState "cv.txt" "job.txt")).1
      = .ok { cv_data := some stubCV } ∧
    slotWriter .cv_data = .parse_cv ∧
    slotSet .cv_data (execSchedule stubFS stubAgents [.load_documents]
      (initialState "cv.txt" "job.txt")).1 = false := by
  have hpre : execSchedule stubFS stubAgents [.load_documents]
      (initialState "cv.txt" "job.txt")
      = ((execSchedule stubFS stubAgents [.load_documents]
          (initialState "cv.txt" "job.txt")).1, none) := by decide
  have h := runstate_write_once stubFS stubAgents "cv.txt" "job.txt"
    canonicalSchedule [.load_documents]
    [.analyze_job, .match_skills, .evaluate_experience, .assess_culture_fit,
     .create_final_assessment] .parse_cv _ { cv_data := some stubCV } .cv_data
    (by decide) (by decide) hpre (by decide) (by decide)
  exact ⟨by decide, h.1, h.2⟩

/-- **C5**: a successful run's report embeds each stage's output exactly as
that stage produced it: the loaded texts are fed unchanged to the
extractors, the two records are fed unchanged to the evaluators and the
scorer, and the report's embedded records and detail fields are precisely
the corresponding agent outputs — the engine introduces no modification
between a stage's output and the report. -/
theorem report_embeds_stage_outputs (fs : FS) (ag : Agents) (cvp jobp : String)
    (r : AssessmentResult) (h : run fs ag cvp jobp = some r) :
    ∃ ct jt cvd jd sm ee cf dts,
      parse_document fs cvp = .ok ct ∧ parse_document fs jobp = .ok jt ∧
      ag.parse_cv ct = .ok cvd ∧ ag.analyze_job jt = .ok jd ∧
      ag.match_skills cvd jd = .ok sm ∧
      ag.evaluate_experience cvd jd = .ok ee ∧
      ag.assess_culture_fit cvd jd = .ok cf ∧
      ag.scorer_details cvd jd sm ee cf r.overall_score = .ok dts ∧
      r.cv_data = cvd ∧ r.job_description = jd ∧ r.skill_match = sm ∧
      r.experience_evaluation = ee ∧ r.culture_fit = cf ∧
      r.overall_score = sm.match_score * (4 / 10)
        + ee.experience_score * (4 / 10) + cf.culture_fit_score * (2 / 10) ∧
      r.recommendation = dts.recommendation ∧ r.strengths = dts.strengths ∧
      r.concerns = dts.concerns ∧ r.summary = dts.summary ∧
      r.timestamp = ag.now := by
  have hex : ∃ sfin, execSchedule fs ag canonicalSchedule (initialState cvp jobp)
      = (sfin, none) ∧ sfin.assessment_result = some r := by
    unfold run runOn invokeOn at h
    rcases he : execSchedule fs ag canonicalSchedule (initialState cvp jobp)
      with ⟨s0, _ | p⟩
    · rw [he] at h; exact ⟨s0, rfl, h⟩
    · rw [he] at h; exact Option.noConfusion h
  obtain ⟨sfin, hexec, hres⟩ := hex
  rw [show canonicalSchedule = Stage.load_documents :: Stage.parse_cv ::
    Stage.analyze_job :: Stage.match_skills :: Stage.evaluate_experience ::
    Stage.assess_culture_fit :: Stage.create_final_assessment :: ([] : List Stage)
    from rfl] at hexec
  obtain ⟨u1, h1, hexec⟩ := exec_cons_ok_inv hexec
  simp only [runNode] at h1
  obtain ⟨u2, h2, hexec⟩ := exec_cons_ok_inv hexec
  simp only [runNode] at h2
  obtain ⟨ct, cvd, hct, hctne, hpc, rfl⟩ := parseCVNode_ok_inv h2
  obtain ⟨u3, h3, hexec⟩ := exec_cons_ok_inv hexec
  simp only [runNode] at h3
  obtain ⟨jt, jd, hjt, hjtne, haj, rfl⟩ := analyzeJobNode_ok_inv h3
  obtain ⟨u4, h4, hexec⟩ := exec_cons_ok_inv hexec
  simp only [runNode] at h4
  obtain ⟨cvd₁, jd₁, sm, hcv₁, hjd₁, hms, rfl⟩ := matchSkillsNode_ok_inv h4
  obtain ⟨u5, h5, hexec⟩ := exec_cons_ok_inv hexec
  simp only [runNode] at h5
  obtain ⟨cvd₂, jd₂, ee, hcv₂, hjd₂, hee, rfl⟩ := evaluateExperienceNode_ok_inv h5
  obtain ⟨u6, h6, hexec⟩ := exec_cons_ok_inv hexec
  simp only [runNode] at h6
  obtain ⟨cvd₃, jd₃, cf, hcv₃, hjd₃, hcf, rfl⟩ := assessCultureFitNode_ok_inv h6
  obtain ⟨u7, h7, hexec⟩ := exec_cons_ok_inv hexec
  simp only [runNode] at h7
  obtain ⟨cvd₄, jd₄, sm₄, ee₄, cf₄, rr, hcv₄, hjd₄, hsm₄, hee₄, hcf₄, hfinal, rfl⟩ :=
    createFinalAssessmentNode_ok_inv h7
  have hfin := exec_nil_inv hexec
  -- the texts written by load_documents
  have hu1cv : u1.cv_text = some ct := by
    rw [← orElse_none_right u1.cv_text]; exact hct
  have hu1jt : u1.job_text = some jt := by
    rw [← orElse_none_right u1.job_text]; exact hjt
  obtain ⟨hcvt_inv, hcvf_inv, hjob_inv, hjobf_inv⟩ := loadDocumentsNode_ok_inv h1
  have hcvtruthy : optStrTruthy (initialState cvp jobp).cv_file_path = true := by
    by_contra hfalse
    have h0 := hcvf_inv (by simpa using hfalse)
    rw [h0] at hu1cv; exact Option.noConfusion hu1cv
  have hjobtruthy : optStrTruthy (initialState cvp jobp).job_description_path
      = true := by
    by_contra hfalse
    have h0 := hjobf_inv (by simpa using hfalse)
    rw [h0] at hu1jt; exact Option.noConfusion hu1jt
  obtain ⟨ct', hpdcv, hct'⟩ := hcvt_inv hcvtruthy
  obtain ⟨jt', hpdjob, hjt'⟩ := hjob_inv hjobtruthy
  have hctct : ct' = ct := by
    rw [hu1cv] at hct'; exact Option.some.inj hct'.symm
  have hjtjt : jt' = jt := by
    rw [hu1jt] at hjt'; exact Option.some.inj hjt'.symm
  rw [hctct] at hpdcv
  rw [hjtjt] at hpdjob
  have hpdcv' : parse_document fs cvp = .ok ct := hpdcv
  have hpdjob' : parse_document fs jobp = .ok jt := hpdjob
  -- the records seen by the evaluators and the scorer
  have hcvd₁ : cvd = cvd₁ := Option.some.inj
    (show some cvd = some cvd₁ from hcv₁)
  have hjd₁' : jd = jd₁ := Option.some.inj
    (show some jd = some jd₁ from hjd₁)
  subst hcvd₁; subst hjd₁'
  have hcvd₂ : cvd = cvd₂ := Option.some.inj
    (show some cvd = some cvd₂ from hcv₂)
  have hjd₂' : jd = jd₂ := Option.some.inj
    (show some jd = some jd₂ from hjd₂)
  subst hcvd₂; subst hjd₂'
  have hcvd₃ : cvd = cvd₃ := Option.some.inj
    (show some cvd = some cvd₃ from hcv₃)
  have hjd₃' : jd = jd₃ := Option.some.inj
    (show some jd = some jd₃ from hjd₃)
  subst hcvd₃; subst hjd₃'
  have hcvd₄ : cvd = cvd₄ := Option.some.inj
    (show some cvd = some cvd₄ from hcv₄)
  have hjd₄' : jd = jd₄ := Option.some.inj
    (show some jd = some jd₄ from hjd₄)
  have hsm₄' : sm = sm₄ := Option.some.inj
    (show some sm = some sm₄ from hsm₄)
  have hee₄' : ee = ee₄ := Option.some.inj
    (show some ee = some ee₄ from hee₄)
  have hcf₄' : cf = cf₄ := Option.some.inj
    (show some cf = some cf₄ from hcf₄)
  subst hcvd₄; subst hjd₄'; subst hsm₄'; subst hee₄'; subst hcf₄'
  -- the final report is the scorer's output
  have hrr : rr = r := by
    rw [← hfin] at hres
    exact Option.some.inj (show some rr = some r from hres)
  subst hrr
  obtain ⟨dts, hdts, rfl⟩ := create_final_assessment_ok_inv hfinal
  exact ⟨ct, jt, cvd, jd, sm, ee, cf, dts, hpdcv', hpdjob', hpc, haj, hms, hee,
    hcf, hdts, rfl, rfl, rfl, rfl, rfl, rfl, rfl, rfl, rfl, rfl, rfl⟩

/-- The stub run evaluated end to end. -/
theorem run_stub_eval : run stubFS stubAgents "cv.txt" "job.txt"
    = some stubReport := by
  have h6 : execSchedule stubFS stubAgents
      [.load_documents, .parse_cv, .analyze_job, .match_skills,
       .evaluate_experience, .assess_culture_fit]
      (initialState "cv.txt" "job.txt") = (stubStateSix, none) := by decide
  unfold run runOn invokeOn
  rw [show canonicalSchedule = [Stage.load_documents, .parse_cv, .analyze_job,
    .match_skills, .evaluate_experience, .assess_culture_fit]
    ++ [Stage.create_final_assessment] from rfl]
  rw [execSchedule_append, h6]
  rfl

/-- Witness for C5: the stub run succeeds and its report embeds exactly the
stub stage outputs. -/
theorem report_embeds_stage_outputs_witness :
    run stubFS stubAgents "cv.txt" "job.txt" = some stubReport ∧
    (∃ ct jt cvd jd sm ee cf dts,
      parse_document stubFS "cv.txt" = .ok ct ∧
      parse_document stubFS "job.txt" = .ok jt ∧
      stubAgents.parse_cv ct = .ok cvd ∧ stubAgents.analyze_job jt = .ok jd ∧
      stubAgents.match_skills cvd jd = .ok sm ∧
      stubAgents.evaluate_experience cvd jd = .ok ee ∧
      stubAgents.assess_culture_fit cvd jd = .ok cf ∧
      stubAgents.scorer_details cvd jd sm ee cf stubReport.overall_score
        = .ok dts ∧
      stubReport.cv_data = cvd ∧ stubReport.job_description = jd ∧
      stubReport.skill_match = sm ∧ stubReport.experience_evaluation = ee ∧
      stubReport.culture_fit = cf ∧
      stubReport.overall_score = sm.match_score * (4 / 10)
        + ee.experience_score * (4 / 10) + cf.culture_fit_score * (2 / 10) ∧
      stubReport.recommendation = dts.recommendation ∧
      stubReport.strengths = dts.strengths ∧
      stubReport.concerns = dts.concerns ∧
      stubReport.summary = dts.summary ∧
      stubReport.timestamp = stubAgents.now) :=
  ⟨run_stub_eval, report_embeds_stage_outputs stubFS stubAgents "cv.txt"
    "job.txt" stubReport run_stub_eval⟩

end CVAssess
